import Mathlib

/-!
# Verification of the Music Theory Engine

A shallow embedding, in Lean 4, of the music-theory engine of the
repository (`theory-engine.js`, plus the visualizer's fast-path chord
analyzer).  JavaScript numbers are modelled as `Int`/`Rat` where the code
only ever produces integral or rational values, and as `Real` where the
code genuinely computes with `Math.pow`/`Math.log2`.  The JavaScript `%`
operator (truncated remainder, sign of the dividend) is modelled by
`Int.tmod`, and `Math.floor(x / 12)` on integer `x` by `Int.fdiv x 12`.
`Array.prototype.sort` (stable since ES2019) is modelled by
`List.insertionSort`, which is likewise stable, so on a consistent
comparator it computes the identical output list.  Fallible lookups
(`SCALES[t]`, `CHORD_TYPES[t]`, …) return `Option`, with `none` for the
source's `null` returns.
-/

namespace SonicGeometry

/-- The 12 chromatic notes, sharp spellings (`NOTE_NAMES`). -/
def NOTE_NAMES : List String :=
  ["C", "C#", "D", "D#", "E", "F", r"F#", "G", "G#", "A", r"A#", "B"]

/-- Flat spellings used for display (`NOTE_NAMES_FLAT`). -/
def NOTE_NAMES_FLAT : List String :=
  ["C", "Db", "D", "Eb", "E", "F", "Gb", "G", "Ab", "A", "Bb", "B"]

/-- `A4_FREQUENCY = 440`. -/
def A4_FREQUENCY : ℚ := 440

/-- `A4_MIDI_NUMBER = 69`. -/
def A4_MIDI_NUMBER : ℤ := 69

/-- One entry of the `INTERVALS` table. -/
structure IntervalData where
  semitones : ℤ
  justRatio : String
  equalRatio : ℚ
  name : String
  /-- the source's `abbrev` field (`abbrev` is a Lean keyword) -/
  abbrevLabel : String
  quality : String
  deriving Repr, DecidableEq

/-- The `INTERVALS` table, in definition order (object key, data). -/
def INTERVALS : List (String × IntervalData) :=
  [("unison", ⟨0, "1:1", 1.000, "Unison", "P1", "perfect"⟩),
   ("minorSecond", ⟨1, "16:15", 1.059, "Minor 2nd", "m2", "dissonant"⟩),
   ("majorSecond", ⟨2, "9:8", 1.122, "Major 2nd", "M2", "dissonant"⟩),
   ("minorThird", ⟨3, "6:5", 1.189, "Minor 3rd", "m3", "consonant"⟩),
   ("majorThird", ⟨4, "5:4", 1.260, "Major 3rd", "M3", "consonant"⟩),
   ("perfectFourth", ⟨5, "4:3", 1.335, "Perfect 4th", "P4", "perfect"⟩),
   ("tritone", ⟨6, "45:32", 1.414, "Tritone", "TT", "dissonant"⟩),
   ("perfectFifth", ⟨7, "3:2", 1.498, "Perfect 5th", "P5", "perfect"⟩),
   ("minorSixth", ⟨8, "8:5", 1.587, "Minor 6th", "m6", "consonant"⟩),
   ("majorSixth", ⟨9, "5:3", 1.682, "Major 6th", "M6", "consonant"⟩),
   ("minorSeventh", ⟨10, "9:5", 1.782, "Minor 7th", "m7", "dissonant"⟩),
   ("majorSeventh", ⟨11, "15:8", 1.888, "Major 7th", "M7", "dissonant"⟩),
   ("octave", ⟨12, "2:1", 2.000, "Octave", "P8", "perfect"⟩)]

/-- One entry of the `SCALES` table. -/
structure ScaleData where
  intervals : List ℤ
  name : String
  description : String
  deriving Repr, DecidableEq

/-- The `SCALES` table, in definition order. -/
def SCALES : List (String × ScaleData) :=
  [("major", ⟨[0, 2, 4, 5, 7, 9, 11], "Major (Ionian)",
      "The \x22happy\x22 scale. W-W-H-W-W-W-H pattern."⟩),
   ("naturalMinor", ⟨[0, 2, 3, 5, 7, 8, 10], "Natural Minor (Aeolian)",
      "The \x22sad\x22 scale. Relative minor of major."⟩),
   ("harmonicMinor", ⟨[0, 2, 3, 5, 7, 8, 11], "Harmonic Minor",
      "Minor with raised 7th. Creates V7 chord."⟩),
   ("melodicMinor", ⟨[0, 2, 3, 5, 7, 9, 11], "Melodic Minor",
      "Minor with raised 6th and 7th (ascending)."⟩),
   ("ionian", ⟨[0, 2, 4, 5, 7, 9, 11], "Ionian",
      "Mode I. Same as Major scale."⟩),
   ("dorian", ⟨[0, 2, 3, 5, 7, 9, 10], "Dorian",
      "Mode II. Minor with raised 6th. Jazz/funk favorite."⟩),
   ("phrygian", ⟨[0, 1, 3, 5, 7, 8, 10], "Phrygian",
      "Mode III. Spanish/flamenco sound. Flat 2nd."⟩),
   ("lydian", ⟨[0, 2, 4, 6, 7, 9, 11], "Lydian",
      "Mode IV. Dreamy, ethereal. Raised 4th (#4)."⟩),
   ("mixolydian", ⟨[0, 2, 4, 5, 7, 9, 10], "Mixolydian",
      "Mode V. Dominant sound. Major with flat 7th."⟩),
   ("aeolian", ⟨[0, 2, 3, 5, 7, 8, 10], "Aeolian",
      "Mode VI. Same as Natural Minor."⟩),
   ("locrian", ⟨[0, 1, 3, 5, 6, 8, 10], "Locrian",
      "Mode VII. Diminished feel. Rarely used."⟩),
   ("majorPentatonic", ⟨[0, 2, 4, 7, 9], "Major Pentatonic",
      "Major without 4th and 7th. Universal \x22safe\x22 scale."⟩),
   ("minorPentatonic", ⟨[0, 3, 5, 7, 10], "Minor Pentatonic",
      "Minor without 2nd and 6th. Blues/rock foundation."⟩),
   ("blues", ⟨[0, 3, 5, 6, 7, 10], "Blues Scale",
      "Minor pentatonic + blue note (flat 5th)."⟩),
   ("majorBlues", ⟨[0, 2, 3, 4, 7, 9], "Major Blues",
      "Major pentatonic + blue note (flat 3rd)."⟩),
   ("chromatic", ⟨[0, 1, 2, 3, 4, 5, 6, 7, 8, 9, 10, 11], "Chromatic",
      "All 12 semitones. No \x22wrong\x22 notes, no \x22right\x22 ones."⟩),
   ("wholeNote", ⟨[0, 2, 4, 6, 8, 10], "Whole Tone",
      "All whole steps. Dreamy, ambiguous sound."⟩),
   ("diminished", ⟨[0, 2, 3, 5, 6, 8, 9, 11], "Diminished (Half-Whole)",
      "Alternating H-W pattern. Tension and mystery."⟩)]

/-- One entry of the `CHORD_TYPES` table. -/
structure ChordData where
  intervals : List ℤ
  symbol : String
  name : String
  formula : String
  quality : String
  deriving Repr, DecidableEq

/-- The `CHORD_TYPES` table, in definition order. -/
def CHORD_TYPES : List (String × ChordData) :=
  [("major", ⟨[0, 4, 7], "", "Major", "R-M3-P5", "consonant"⟩),
   ("minor", ⟨[0, 3, 7], "m", "Minor", "R-m3-P5", "consonant"⟩),
   ("diminished", ⟨[0, 3, 6], "dim", "Diminished", "R-m3-d5", "dissonant"⟩),
   ("augmented", ⟨[0, 4, 8], "aug", "Augmented", "R-M3-A5", "dissonant"⟩),
   ("sus2", ⟨[0, 2, 7], "sus2", "Suspended 2nd", "R-M2-P5", "open"⟩),
   ("sus4", ⟨[0, 5, 7], "sus4", "Suspended 4th", "R-P4-P5", "open"⟩),
   ("major7", ⟨[0, 4, 7, 11], "maj7", "Major 7th", "R-M3-P5-M7", "jazzy"⟩),
   ("minor7", ⟨[0, 3, 7, 10], "m7", "Minor 7th", "R-m3-P5-m7", "jazzy"⟩),
   ("dominant7", ⟨[0, 4, 7, 10], "7", "Dominant 7th", "R-M3-P5-m7", "tension"⟩),
   ("diminished7", ⟨[0, 3, 6, 9], "dim7", "Diminished 7th", "R-m3-d5-d7", "tension"⟩),
   ("halfDiminished", ⟨[0, 3, 6, 10], "m7b5", "Half-Diminished", "R-m3-d5-m7", "tension"⟩),
   ("minorMajor7", ⟨[0, 3, 7, 11], "mMaj7", "Minor-Major 7th", "R-m3-P5-M7", "exotic"⟩),
   ("augmented7", ⟨[0, 4, 8, 10], "aug7", "Augmented 7th", "R-M3-A5-m7", "exotic"⟩),
   ("add9", ⟨[0, 4, 7, 14], "add9", "Add 9", "R-M3-P5-M9", "bright"⟩),
   ("minor9", ⟨[0, 3, 7, 10, 14], "m9", "Minor 9th", "R-m3-P5-m7-M9", "smooth"⟩),
   ("major9", ⟨[0, 4, 7, 11, 14], "maj9", "Major 9th", "R-M3-P5-M7-M9", "lush"⟩)]

/-- One entry of the `DIATONIC_PATTERNS` table. -/
structure DiatonicPattern where
  triads : List String
  numerals : List String
  sevenths : List String
  deriving Repr, DecidableEq

/-- The `DIATONIC_PATTERNS` table, in definition order. -/
def DIATONIC_PATTERNS : List (String × DiatonicPattern) :=
  [("major",
    ⟨["major", "minor", "minor", "major", "major", "minor", "diminished"],
     ["I", "ii", "iii", "IV", "V", "vi", "vii°"],
     ["major7", "minor7", "minor7", "major7", "dominant7", "minor7", "halfDiminished"]⟩),
   ("naturalMinor",
    ⟨["minor", "diminished", "major", "minor", "minor", "major", "major"],
     ["i", "ii°", "III", "iv", "v", "VI", "VII"],
     ["minor7", "halfDiminished", "major7", "minor7", "minor7", "major7", "dominant7"]⟩),
   ("harmonicMinor",
    ⟨["minor", "diminished", "augmented", "minor", "major", "major", "diminished"],
     ["i", "ii°", "III+", "iv", "V", "VI", "vii°"],
     ["minorMajor7", "halfDiminished", "augmented7", "minor7", "dominant7", "major7", "diminished7"]⟩),
   ("dorian",
    ⟨["minor", "minor", "major", "major", "minor", "diminished", "major"],
     ["i", "ii", "III", "IV", "v", "vi°", "VII"],
     ["minor7", "minor7", "major7", "dominant7", "minor7", "halfDiminished", "major7"]⟩)]

namespace MusicTheoryEngine

/-- The flat-to-sharp normalization object of `noteToIndex`:
`{ Db: C#, Eb: D#, Fb: E, Gb: F#, Ab: G#, Bb: A#, Cb: B }`. -/
def flatToSharp : List (String × String) :=
  [("Db", "C#"), ("Eb", "D#"), ("Fb", "E"), ("Gb", "F#"),
   ("Ab", "G#"), ("Bb", "A#"), ("Cb", "B")]

/-- `noteToIndex(note)`: flat→sharp normalization, then
`NOTE_NAMES.indexOf(normalized)`.  As in JavaScript, an unrecognized
name yields the `indexOf` sentinel `-1`; no error is thrown. -/
def noteToIndex (note : String) : ℤ :=
  let normalized := (flatToSharp.lookup note).getD note
  if normalized ∈ NOTE_NAMES then (NOTE_NAMES.indexOf normalized : ℤ) else -1

/-- `indexToNote(index, useFlats)`: normalizes any integer via the
JavaScript expression `((index % 12) + 12) % 12` (`%` = `Int.tmod`) and
indexes the chosen spelling table.  The computed index is always in
`[0, 12)`, so the `getD` default is never used. -/
def indexToNote (index : ℤ) (useFlats : Bool := false) : String :=
  let normalized := ((index.tmod 12) + 12).tmod 12
  if useFlats then NOTE_NAMES_FLAT.getD normalized.toNat ""
  else NOTE_NAMES.getD normalized.toNat ""

/-- A note name is recognized when it is a sharp spelling or one of the
seven flat aliases handled by `noteToIndex`. -/
def recognizedSpellings : List String :=
  NOTE_NAMES ++ ["Db", "Eb", "Fb", "Gb", "Ab", "Bb", "Cb"]

/-- A valid pitch-class name: one `noteToIndex` resolves (no `-1`). -/
def ValidNote (note : String) : Prop := noteToIndex note ≠ -1

instance : DecidablePred ValidNote := fun _ => by
  unfold ValidNote; infer_instance

/-- Canonical sharp spelling of a (possibly flat-spelled) name — the
source's recurring idiom `indexToNote(noteToIndex(n))`. -/
def canonName (note : String) : String := indexToNote (noteToIndex note)

/-- `noteToFrequency(note, octave)`: MIDI key `(octave+1)*12 + index`,
then `440 * 2^((midi - 69) / 12)` (ideal-real model of the source's
`Math.pow`). -/
noncomputable def noteToFrequency (note : String) (octave : ℤ := 4) : ℝ :=
  let noteIndex := noteToIndex note
  let midiNote := (octave + 1) * 12 + noteIndex
  (A4_FREQUENCY : ℝ) * (2 : ℝ) ^ (((midiNote - A4_MIDI_NUMBER : ℤ) : ℝ) / 12)

/-- `frequencyToNote(freq)`: `round(12 * log2(freq / 440) + 69)` reduced
with the JavaScript `% 12` (ideal-real model of `Math.log2`;
`Math.round` = `round`, which rounds half toward `+∞` exactly as
JavaScript does). -/
noncomputable def frequencyToNote (freq : ℝ) : String :=
  let midiNote : ℤ := round (12 * Real.logb 2 (freq / (A4_FREQUENCY : ℝ)) + (69 : ℝ))
  indexToNote (midiNote.tmod 12)

/-- Result record of `getInterval`.  The source also formats
`frequencyRatio = (2^(semitones/12)).toFixed(4)`, a float-formatted
display string that no claim concerns; it is the only omitted field. -/
structure IntervalResult where
  semitones : ℤ
  halfSteps : ℤ
  wholeSteps : ℚ
  justRatio : String
  name : String
  quality : String
  deriving Repr, DecidableEq

/-- `getInterval(noteA, noteB)`. -/
def getInterval (noteA noteB : String) : IntervalResult :=
  let indexA := noteToIndex noteA
  let indexB := noteToIndex noteB
  let semitones := ((indexB - indexA) + 12).tmod 12
  let intervalData := (INTERVALS.find? fun p => p.2.semitones = semitones).map Prod.snd
  { semitones := semitones
    halfSteps := semitones
    wholeSteps := (semitones : ℚ) / 2
    justRatio := (intervalData.map IntervalData.justRatio).getD "N/A"
    name := (intervalData.map IntervalData.name).getD (toString semitones ++ " semitones")
    quality := (intervalData.map IntervalData.quality).getD "unknown" }

/-- Result record of `getScaleNotes`. -/
structure ScaleResult where
  root : String
  type : String
  name : String
  notes : List String
  intervals : List ℤ
  description : String
  noteIndices : List ℤ
  deriving Repr, DecidableEq

/-- `getScaleNotes(root, scaleType)`; `none` models the `null` return
for an unregistered scale type. -/
def getScaleNotes (root : String) (scaleType : String := "major") : Option ScaleResult :=
  match SCALES.lookup scaleType with
  | none => none
  | some scale =>
    let rootIndex := noteToIndex root
    some
      { root := root
        type := scaleType
        name := root ++ " " ++ scale.name
        notes := scale.intervals.map fun interval =>
          indexToNote ((rootIndex + interval).tmod 12)
        intervals := scale.intervals
        description := scale.description
        noteIndices := scale.intervals.map fun i => (rootIndex + i).tmod 12 }

/-- `isNoteInScale(note, root, scaleType)`:
`scale?.notes.includes(note) || false`.  The query string is compared
raw — the source applies no normalization to it. -/
def isNoteInScale (note root scaleType : String) : Bool :=
  match getScaleNotes root scaleType with
  | some scale => scale.notes.contains note
  | none => false

/-- One element of `buildChord`'s `frequencies` array: the note name and
its concrete octave.  The source's third field is the Hz value
`noteToFrequency(note, octave)`, recoverable from these two fields via
`chordToneFrequency`. -/
structure ChordTone where
  note : String
  octave : ℤ
  deriving Repr, DecidableEq

/-- The Hz value the source stores alongside each chord tone. -/
noncomputable def chordToneFrequency (t : ChordTone) : ℝ :=
  noteToFrequency t.note t.octave

/-- Result record of `buildChord`. -/
structure ChordResult where
  root : String
  type : String
  name : String
  fullName : String
  notes : List String
  intervals : List ℤ
  formula : String
  quality : String
  frequencies : List ChordTone
  deriving Repr, DecidableEq

/-- The chord-tone names: `intervals.map(i => indexToNote((rootIndex + i) % 12))`. -/
def chordNoteNames (rootIndex : ℤ) (intervals : List ℤ) : List String :=
  intervals.map fun interval => indexToNote ((rootIndex + interval).tmod 12)

/-- `buildChord(root, chordType)`; `none` models the `null` return for
an unregistered chord type.  Each tone's octave is
`4 + Math.floor((rootIndex + interval) / 12)` (`Int.fdiv`). -/
def buildChord (root : String) (chordType : String := "major") : Option ChordResult :=
  match CHORD_TYPES.lookup chordType with
  | none => none
  | some chord =>
    let rootIndex := noteToIndex root
    let notes := chordNoteNames rootIndex chord.intervals
    some
      { root := root
        type := chordType
        name := root ++ chord.symbol
        fullName := root ++ " " ++ chord.name
        notes := notes
        intervals := chord.intervals
        formula := chord.formula
        quality := chord.quality
        frequencies := chord.intervals.map fun interval =>
          { note := indexToNote ((rootIndex + interval).tmod 12)
            octave := 4 + (rootIndex + interval).fdiv 12 } }

/-- One entry of `getDiatonicChords`' result. -/
structure DiatonicEntry where
  degree : ℕ
  numeral : String
  root : String
  chord : Option ChordResult
  chordType : String
  deriving Repr, DecidableEq

/-- `getDiatonicChords(root, scaleType, useSevenths)`: `none` models the
`null` return when `DIATONIC_PATTERNS` has no entry for `scaleType`.
The inner `none` branch is unreachable — every diatonic-pattern key is a
scale key (in the source, `scale` is used unconditionally there). -/
def getDiatonicChords (root : String) (scaleType : String := "major")
    (useSevenths : Bool := false) : Option (List DiatonicEntry) :=
  match DIATONIC_PATTERNS.lookup scaleType with
  | none => none
  | some pattern =>
    match getScaleNotes root scaleType with
    | none => none
    | some scale =>
      let chordTypes := if useSevenths then pattern.sevenths else pattern.triads
      some <| scale.notes.enum.map fun (i, note) =>
        { degree := i + 1
          numeral := pattern.numerals.getD i ""
          root := note
          chord := buildChord note (chordTypes.getD i "")
          chordType := chordTypes.getD i "" }

/-- `[...new Set(xs)]`: JavaScript `Set` keeps first occurrences in
insertion order. -/
def jsDedup (l : List String) : List String :=
  l.foldl (fun acc x => if x ∈ acc then acc else acc ++ [x]) []

/-- The canonicalized unique pitch-class list both `identifyChord` and
`detectKey` start from:
`[...new Set(names.map(n => indexToNote(noteToIndex(n))))]`. -/
def canonUnique (noteNames : List String) : List String :=
  jsDedup (noteNames.map canonName)

/-- The sorted semitone offsets of all unique notes relative to a
candidate root: `uniqueNotes.map(n => ((i(n) - i(root)) + 12) % 12)`
followed by the numeric-ascending `sort((a, b) => a - b)`. -/
def chordIntervalsFrom (uniqueNotes : List String) (root : String) : List ℤ :=
  let rootIndex := noteToIndex root
  (uniqueNotes.map fun n => ((noteToIndex n - rootIndex) + 12).tmod 12).insertionSort
    (· ≤ ·)

/-- The inner loop of `identifyChord`: scan `CHORD_TYPES` in definition
order for the first template whose ascending-sorted intervals equal the
computed interval list (the source compares `JSON.stringify` of the two
number arrays, i.e. list equality). -/
def matchChordType (intervals : List ℤ) : Option (String × ChordData) :=
  CHORD_TYPES.find? fun p => p.2.intervals.insertionSort (· ≤ ·) = intervals

/-- The double loop of `identifyChord`: candidate roots in
`uniqueNotes` order (i.e. first-appearance order of the input), chord
types in catalog order; first exact match wins. -/
def findChordMatch (uniqueNotes : List String) : Option (String × String × ChordData) :=
  uniqueNotes.findSome? fun potentialRoot =>
    (matchChordType (chordIntervalsFrom uniqueNotes potentialRoot)).map
      fun (type, data) => (potentialRoot, type, data)

/-- Result record of `identifyChord`.  On a match the source spreads
`buildChord(root, type)` and adds `confidence: 1.0`; the fields the
spread contributes beyond these are `fullName`, `intervals`, `formula`,
`quality` and `frequencies`, all determined by `buildChord root type`.
On no match only `notes`, `name` and `confidence` are present —
modelled by `root := none` / `type := none`. -/
structure IdentifyResult where
  name : String
  notes : List String
  confidence : ℚ
  root : Option String
  type : Option String
  deriving Repr, DecidableEq

/-- `identifyChord(notes)` over note-name input.  (The source first
maps `{note, freq}` objects to their `note` string; the embedding takes
the resulting name list.)  `none` models the `null` return when fewer
than 2 unique pitch classes remain. -/
def identifyChord (notes : List String) : Option IdentifyResult :=
  let uniqueNotes := canonUnique notes
  if uniqueNotes.length < 2 then none
  else
    match findChordMatch uniqueNotes with
    | some (potentialRoot, type, data) =>
      some
        { name := potentialRoot ++ data.symbol
          notes := chordNoteNames (noteToIndex potentialRoot) data.intervals
          confidence := 1
          root := some potentialRoot
          type := some type }
    | none =>
      some
        { name := "Unknown"
          notes := uniqueNotes
          confidence := 0
          root := none
          type := none }

/-- The fixed candidate scale set of `detectKey`. -/
def keyScaleTypes : List String := ["major", "naturalMinor", "dorian", "mixolydian"]

/-- One candidate of `detectKey`'s result. -/
structure KeyCandidate where
  key : String
  root : String
  scale : String
  score : ℚ
  matchedNotes : ℕ
  totalNotes : ℕ
  deriving Repr, DecidableEq

/-- Score one `(root, scaleType)` candidate against the unique note
list: `score = (inScale - outOfScale * 2) / uniqueNotes.length`, pushed
only when `score > 0` (with `Math.max(0, score)` stored).  `none` for a
discarded candidate; the scale lookup never fails for the four
candidate types. -/
def scoreCandidate (uniqueNotes : List String) (root scaleType : String) :
    Option KeyCandidate :=
  match MusicTheoryEngine.getScaleNotes root scaleType with
  | none => none
  | some scale =>
    let inScale := (uniqueNotes.filter fun n => scale.notes.contains n).length
    let outOfScale := uniqueNotes.length - inScale
    let score : ℚ := ((inScale : ℚ) - (outOfScale : ℚ) * 2) / (uniqueNotes.length : ℚ)
    if 0 < score then
      some
        { key := root ++ " " ++ scale.name
          root := root
          scale := scaleType
          score := max 0 score
          matchedNotes := inScale
          totalNotes := uniqueNotes.length }
    else none

/-- `detectKey(notes)` over note-name input.  (The source first maps
frequencies through `frequencyToNote` and objects to `n.note`; the
embedding takes the resulting name list.)  Tests every root in
`NOTE_NAMES` against the four candidate scales, keeps positive scores,
sorts descending by score (`sort((a, b) => b.score - a.score)`, stable)
and returns the first 5. -/
def detectKey (notes : List String) : List KeyCandidate :=
  let uniqueNotes := canonUnique notes
  if uniqueNotes.length < 2 then []
  else
    let results := NOTE_NAMES.flatMap fun root =>
      keyScaleTypes.filterMap fun scaleType => scoreCandidate uniqueNotes root scaleType
    (results.insertionSort fun a b => b.score ≤ a.score).take 5

end MusicTheoryEngine

/-- A note as the visualizer's `AudioEngine.getActiveNotes` reports it:
`{ freq, note }`.  Frequencies are modelled as rationals; only their
order matters for the analyzed claim. -/
structure ANote where
  freq : ℚ
  note : String
  deriving Repr, DecidableEq

namespace ChordAnalyzer

/-- The contents of the caller's `activeNotes` array after
`ChordAnalyzer.identify(activeNotes)` returns: the early `length < 2`
return leaves the array untouched; otherwise
`activeNotes.sort((a, b) => a.freq - b.freq)` has reordered it in place,
ascending by frequency (stable).  Everything the method computes after
that point reads `sorted` (the same array object) without writing to
it, so this is the method's entire effect on its argument. -/
def identifyFinalNotes (activeNotes : List ANote) : List ANote :=
  if activeNotes.length < 2 then activeNotes
  else activeNotes.insertionSort fun a b => a.freq ≤ b.freq

end ChordAnalyzer

/-! ## Arithmetic bridge lemmas for the JavaScript `%` operator -/

/-- `Int.tmod` by 12 stays strictly between `-12` and `12`. -/
theorem tmod_twelve_bounds (m : ℤ) : -12 < m.tmod 12 ∧ m.tmod 12 < 12 := by
  cases m with
  | ofNat n =>
    have h : (Int.ofNat n).tmod 12 = ((n % 12 : ℕ) : ℤ) := rfl
    rw [h]
    omega
  | negSucc n =>
    have h : (Int.negSucc n).tmod 12 = -(((n + 1) % 12 : ℕ) : ℤ) := rfl
    rw [h]
    omega

/-- `tmod` by 12 equals `%` (`emod`) by 12 up to one period. -/
theorem tmod_twelve_eq_emod_or (m : ℤ) :
    m.tmod 12 = m % 12 ∨ m.tmod 12 = m % 12 - 12 := by
  have h1 := Int.tmod_add_tdiv m 12
  have h2 := Int.emod_add_ediv m 12
  have h3 := tmod_twelve_bounds m
  omega

/-- The JavaScript normalization `((i % 12) + 12) % 12` agrees with
mathematical `emod`. -/
theorem js_norm_eq_emod (m : ℤ) : ((m.tmod 12) + 12).tmod 12 = m % 12 := by
  have h3 := tmod_twelve_bounds m
  rcases tmod_twelve_eq_emod_or m with h | h <;>
  · rw [Int.tmod_eq_emod (by omega) (by norm_num)]
    omega

/-- Reducing an already-`tmod`ed value with `emod` gives `emod` of the
original. -/
theorem emod_tmod_twelve (m : ℤ) : (m.tmod 12) % 12 = m % 12 := by
  have h3 := tmod_twelve_bounds m
  rcases tmod_twelve_eq_emod_or m with h | h <;> omega

namespace MusicTheoryEngine

/-- `indexToNote` in `emod` normal form. -/
theorem indexToNote_eq_getD (i : ℤ) (b : Bool) :
    indexToNote i b =
      (if b then NOTE_NAMES_FLAT else NOTE_NAMES).getD (i % 12).toNat "" := by
  unfold indexToNote
  rw [js_norm_eq_emod]
  cases b <;> simp

/-- The canonical sharp spelling of any integer index is one of the 12
sharp names. -/
theorem indexToNote_mem (i : ℤ) : indexToNote i ∈ NOTE_NAMES := by
  rw [indexToNote_eq_getD]
  have h0 : 0 ≤ i % 12 := Int.emod_nonneg i (by norm_num)
  have h1 : i % 12 < 12 := Int.emod_lt_of_pos i (by norm_num)
  have hlen : NOTE_NAMES.length = 12 := rfl
  have h2 : (i % 12).toNat < NOTE_NAMES.length := by omega
  simp only [if_neg Bool.false_ne_true]
  rw [List.getD_eq_getElem _ _ h2]
  exact List.getElem_mem h2

/-- A valid note's index lies in `[0, 12)`. -/
theorem noteToIndex_bounds {n : String} (h : ValidNote n) :
    0 ≤ noteToIndex n ∧ noteToIndex n < 12 := by
  unfold ValidNote at h
  unfold noteToIndex at *
  by_cases hm : ((flatToSharp.lookup n).getD n) ∈ NOTE_NAMES
  · rw [if_pos hm]
    have h1 := List.indexOf_lt_length.mpr hm
    have hlen : NOTE_NAMES.length = 12 := rfl
    omega
  · rw [if_neg hm] at h
    exact absurd rfl h

end MusicTheoryEngine

namespace MusicTheoryEngine

/-! ## Claims -/

/-- C1, counterexample: the claim's octave formula `4 + floor(offset/12)`
fails at root `B`: the offset-4 tone (`D#`) of `B major` is assigned
octave `5`, although `4 + floor(4/12) = 4`. -/
theorem claim_C1_counterexample :
    (buildChord "B" "major").map (fun r => (r.intervals, r.frequencies.map ChordTone.octave)) =
      some ([0, 4, 7], [4, 5, 5]) ∧
    (4 : ℤ) + Int.fdiv 4 12 = 4 ∧ (4 : ℤ) + Int.fdiv 4 12 ≠ 5 :=
  ⟨by decide, by decide, by decide⟩

/-- C1, amended: for every valid root and registered chord type, each
chord tone's octave is `4 + floor((rootIndex + offset) / 12)`; in
particular a tone with `rootIndex + offset < 12` lands in octave 4. -/
theorem claim_C1_octave_assignment :
    ∀ (root chordType : String) (cd : ChordData),
      ValidNote root → CHORD_TYPES.lookup chordType = some cd →
      ∃ r, buildChord root chordType = some r ∧
        r.frequencies.map ChordTone.octave =
          cd.intervals.map (fun off => 4 + (noteToIndex root + off).fdiv 12) ∧
        ∀ off ∈ cd.intervals, 0 ≤ off → noteToIndex root + off < 12 →
          4 + (noteToIndex root + off).fdiv 12 = 4 := by
  intro root chordType cd hv hc
  obtain ⟨hr0, _⟩ := noteToIndex_bounds hv
  unfold buildChord
  rw [hc]
  refine ⟨_, rfl, ?_, ?_⟩
  · simp [List.map_map]
  · intro off _ hoff h12
    rw [Int.fdiv_eq_ediv _ (by norm_num)]
    omega

/-- C1, witness: the amended octave assignment evaluated at `B major`. -/
theorem claim_C1_witness :
    (buildChord "B" "major").map (fun r => r.frequencies.map ChordTone.octave) =
      some [4, 5, 5] := by
  obtain ⟨r, hr, hmap, _⟩ := claim_C1_octave_assignment "B" "major"
    ⟨[0, 4, 7], "", "Major", "R-M3-P5", "consonant"⟩ (by decide) (by decide)
  rw [hr, Option.map_some', hmap]
  decide

/-- C2, counterexample: `isNoteInScale` does not normalize the query:
the flat query `Bb` is reported out of `F major` although its sharp
equivalent `A#` is among the scale's notes. -/
theorem claim_C2_counterexample :
    isNoteInScale "Bb" "F" "major" = false ∧
    (getScaleNotes "F" "major").map ScaleResult.notes =
      some ["F", "G", "A", "A#", "C", "D", "E"] ∧
    canonName "Bb" = "A#" ∧
    isNoteInScale "A#" "F" "major" = true :=
  ⟨by decide, by decide, by decide, by decide⟩

/-- C2, amended: `isNoteInScale` compares the raw query string against
the scale's produced (always sharp-spelled) names; only canonical sharp
spellings can ever test as members, so flat queries return `false` even
when the enharmonic sharp equivalent is in the scale. -/
theorem claim_C2_raw_containment :
    ∀ note root scaleType : String,
      (isNoteInScale note root scaleType = true → note ∈ NOTE_NAMES) ∧
      (∀ sc, getScaleNotes root scaleType = some sc →
        isNoteInScale note root scaleType = sc.notes.contains note) := by
  intro note root scaleType
  constructor
  · intro h
    unfold isNoteInScale at h
    cases hs : getScaleNotes root scaleType with
    | none => rw [hs] at h; cases h
    | some sc =>
      rw [hs] at h
      have hmem : note ∈ sc.notes := by simpa using h
      unfold getScaleNotes at hs
      cases hl : SCALES.lookup scaleType with
      | none => rw [hl] at hs; cases hs
      | some sd =>
        rw [hl] at hs
        injection hs with hs
        rw [← hs] at hmem
        simp only [List.mem_map] at hmem
        obtain ⟨i, _, rfl⟩ := hmem
        exact indexToNote_mem _
  · intro sc hs
    unfold isNoteInScale
    rw [hs]

/-- C2, witness: the raw containment check evaluated at the sharp query
`A#` against `F major`. -/
theorem claim_C2_witness :
    isNoteInScale "A#" "F" "major" = true ∧ "A#" ∈ NOTE_NAMES :=
  ⟨by decide, (claim_C2_raw_containment "A#" "F" "major").1 (by decide)⟩

/-- C4, counterexample: the unrecognized name `H` produces the silent
sentinel `-1` — no error exists — and downstream entry points proceed
with it (canonicalizing index `-1` to `B`). -/
theorem claim_C4_counterexample :
    noteToIndex "H" = -1 ∧
    (buildChord "H" "major").isSome = true ∧
    (buildChord "H" "major").map ChordResult.notes = some ["B", "D#", "F#"] :=
  ⟨by decide, by decide, by decide⟩

/-- C4, amended: `noteToIndex` returns the `indexOf` sentinel `-1`
exactly on names outside the 12 sharp spellings and 7 flat aliases
(`Db Eb Fb Gb Ab Bb Cb` — the source also aliases `Fb` and `Cb`), and
note-name-consuming entry points do not fail on such names. -/
theorem claim_C4_sentinel :
    ∀ s : String,
      ((noteToIndex s = -1) ↔ s ∉ recognizedSpellings) ∧
      (getScaleNotes s "major").isSome = true ∧
      (buildChord s "major").isSome = true := by
  intro s
  refine ⟨?_, rfl, rfl⟩
  by_cases hs : s ∈ recognizedSpellings
  · fin_cases hs <;> decide
  · have hs' : s ∉ recognizedSpellings := hs
    simp only [recognizedSpellings, NOTE_NAMES, List.mem_append, List.mem_cons,
      List.not_mem_nil, or_false, not_or] at hs
    obtain ⟨⟨h1, h2, h3, h4, h5, h6, h7, h8, h9, h10, h11, h12⟩,
      f1, f2, f3, f4, f5, f6, f7⟩ := hs
    have hlook : flatToSharp.lookup s = none := by
      simp [flatToSharp, List.lookup, beq_eq_false_iff_ne.mpr f1,
        beq_eq_false_iff_ne.mpr f2, beq_eq_false_iff_ne.mpr f3,
        beq_eq_false_iff_ne.mpr f4, beq_eq_false_iff_ne.mpr f5,
        beq_eq_false_iff_ne.mpr f6, beq_eq_false_iff_ne.mpr f7]
    have hmem : s ∉ NOTE_NAMES := by
      simp [NOTE_NAMES, h1, h2, h3, h4, h5, h6, h7, h8, h9, h10, h11, h12]
    constructor
    · intro _; exact hs'
    · intro _
      unfold noteToIndex
      rw [hlook]
      simp only [Option.getD_none]
      rw [if_neg hmem]

/-- C4, witness: the sentinel characterization evaluated at the
unrecognized name `H`. -/
theorem claim_C4_witness :
    noteToIndex "H" = -1 ∧ (getScaleNotes "H" "major").isSome = true :=
  ⟨(claim_C4_sentinel "H").1.mpr (by decide), (claim_C4_sentinel "H").2.1⟩

/-- C6: for valid pitch-class names, `getInterval` yields a semitone
count in `[0, 11]` computed by `((index(b) - index(a)) + 12) % 12`, with
`getInterval a a` at `0` — so a 12-semitone octave relation between two
spellings of the same class collapses to 0. -/
theorem claim_C6_interval_range :
    ∀ a b : String, ValidNote a → ValidNote b →
      0 ≤ (getInterval a b).semitones ∧ (getInterval a b).semitones ≤ 11 ∧
      (getInterval a b).semitones = ((noteToIndex b - noteToIndex a) + 12).tmod 12 ∧
      (getInterval a a).semitones = 0 := by
  intro a b ha hb
  obtain ⟨ha0, ha1⟩ := noteToIndex_bounds ha
  obtain ⟨hb0, hb1⟩ := noteToIndex_bounds hb
  have hdef : ∀ x y : String,
      (getInterval x y).semitones = ((noteToIndex y - noteToIndex x) + 12).tmod 12 :=
    fun _ _ => rfl
  have hb' := tmod_twelve_bounds ((noteToIndex b - noteToIndex a) + 12)
  have hnn : 0 ≤ ((noteToIndex b - noteToIndex a) + 12).tmod 12 :=
    Int.tmod_nonneg _ (by omega)
  refine ⟨?_, ?_, hdef a b, ?_⟩
  · rw [hdef]; exact hnn
  · rw [hdef]; omega
  · rw [hdef]
    have : noteToIndex a - noteToIndex a + 12 = 12 := by ring
    rw [this]
    decide

/-- C6, witness: the interval range evaluated at the pair `(E, C)`. -/
theorem claim_C6_witness :
    ValidNote "E" ∧ ValidNote "C" ∧
      (0 ≤ (getInterval "E" "C").semitones ∧ (getInterval "E" "C").semitones ≤ 11 ∧
       (getInterval "E" "C").semitones =
         ((noteToIndex "C" - noteToIndex "E") + 12).tmod 12 ∧
       (getInterval "E" "E").semitones = 0) :=
  ⟨by decide, by decide, claim_C6_interval_range "E" "C" (by decide) (by decide)⟩

/-- C9: `getDiatonicChords` is `none` exactly when no diatonic pattern
is registered; with a registered pattern it yields one entry per scale
degree (`degree i+1` at position `i`), and `A natural minor` yields the
seven numerals `i ii° III iv v VI VII`. -/
theorem claim_C9_diatonic :
    (∀ root scaleType useSevenths, DIATONIC_PATTERNS.lookup scaleType = none →
        getDiatonicChords root scaleType useSevenths = none) ∧
    (∀ root scaleType useSevenths pattern sc,
        DIATONIC_PATTERNS.lookup scaleType = some pattern →
        getScaleNotes root scaleType = some sc →
        ∃ l, getDiatonicChords root scaleType useSevenths = some l ∧
          l.length = sc.notes.length ∧
          ∀ i : Fin l.length, (l.get i).degree = (i : ℕ) + 1) ∧
    (getDiatonicChords "A" "naturalMinor" false).map (fun l => l.map DiatonicEntry.numeral) =
      some ["i", "ii°", "III", "iv", "v", "VI", "VII"] := by
  refine ⟨?_, ?_, by decide⟩
  · intro root scaleType useSevenths h
    unfold getDiatonicChords
    rw [h]
  · intro root scaleType useSevenths pattern sc hp hs
    unfold getDiatonicChords
    rw [hp, hs]
    refine ⟨_, rfl, ?_, ?_⟩
    · simp
    · intro i
      have hi := i.isLt
      simp only [List.length_map] at hi
      simp [List.get_eq_getElem, List.getElem_map, List.getElem_enum]

/-- C9, witness: the unavailable branch at the `blues` scale (no
diatonic pattern) and the registered `A natural minor` case. -/
theorem claim_C9_witness :
    DIATONIC_PATTERNS.lookup "blues" = none ∧
    getDiatonicChords "C" "blues" true = none :=
  ⟨by decide, claim_C9_diatonic.1 "C" "blues" true (by decide)⟩

/-- `List.findSome?` returns a hit whose position is no later than any
element the function succeeds on. -/
theorem findSome?_earliest {β : Type} (f : String → Option β) :
    ∀ (l : List String) (a : String), a ∈ l → (f a).isSome = true →
      ∃ a' b, l.findSome? f = some b ∧ f a' = some b ∧ a' ∈ l ∧
        l.indexOf a' ≤ l.indexOf a := by
  intro l
  induction l with
  | nil => intro a ha; cases ha
  | cons x xs ih =>
    intro a ha hfa
    cases hfx : f x with
    | some bx =>
      refine ⟨x, bx, ?_, hfx, List.mem_cons_self x xs, ?_⟩
      · rw [List.findSome?_cons, hfx]
      · simp [List.indexOf_cons]
    | none =>
      have hax : a ≠ x := by
        rintro rfl
        rw [hfx] at hfa
        cases hfa
      have ha' : a ∈ xs := by
        rcases List.mem_cons.mp ha with h | h
        · exact absurd h hax
        · exact h
      obtain ⟨a', b, hfs, hfa', hmem, hle⟩ := ih a ha' hfa
      have ha'x : a' ≠ x := by
        rintro rfl
        rw [hfx] at hfa'
        cases hfa'
      refine ⟨a', b, ?_, hfa', List.mem_cons_of_mem x hmem, ?_⟩
      · rw [List.findSome?_cons, hfx]
        exact hfs
      · rw [List.indexOf_cons, List.indexOf_cons,
          beq_eq_false_iff_ne.mpr (Ne.symm ha'x), beq_eq_false_iff_ne.mpr (Ne.symm hax)]
        simp
        omega

/-- C3, counterexample: the same pitch-class set supplied in two
different orders identifies differently — `[G,D,C]` comes back as
`G sus4` while `[C,D,G]` comes back as `C sus2` — so the returned
identification is determined by the supplied order, not by the
canonical `NOTE_NAMES` order (which would pick root `C` both times). -/
theorem claim_C3_counterexample :
    (identifyChord ["G", "D", "C"]).map (fun r => (r.root, r.type)) =
      some (some "G", some "sus4") ∧
    (identifyChord ["C", "D", "G"]).map (fun r => (r.root, r.type)) =
      some (some "C", some "sus2") :=
  ⟨by decide, by decide⟩

/-- C3, amended: candidate roots are tried in the first-appearance
order of the supplied (canonicalized, deduplicated) notes, with chord
types in catalog definition order for each root; the first exact match
wins with confidence 1.0 — whenever some supplied root matches a
template, the result is a match whose root appears no later in the
supplied order. -/
theorem claim_C3_supplied_order :
    ∀ (notes : List String) (r : String),
      2 ≤ (canonUnique notes).length →
      r ∈ canonUnique notes →
      (matchChordType (chordIntervalsFrom (canonUnique notes) r)).isSome = true →
      ∃ res r0, identifyChord notes = some res ∧ res.root = some r0 ∧
        res.confidence = 1 ∧ r0 ∈ canonUnique notes ∧
        (matchChordType (chordIntervalsFrom (canonUnique notes) r0)).isSome = true ∧
        (canonUnique notes).indexOf r0 ≤ (canonUnique notes).indexOf r := by
  intro notes r h2 hr hm
  have hfa : ((fun potentialRoot =>
      (matchChordType (chordIntervalsFrom (canonUnique notes) potentialRoot)).map
        fun (type, data) => (potentialRoot, type, data)) r).isSome = true := by
    simpa using hm
  obtain ⟨r0, b, hfs, hf0, hmem, hle⟩ :=
    findSome?_earliest
      (fun potentialRoot =>
        (matchChordType (chordIntervalsFrom (canonUnique notes) potentialRoot)).map
          fun (type, data) => (potentialRoot, type, data))
      (canonUnique notes) r hr hfa
  have hfind : findChordMatch (canonUnique notes) = some b := hfs
  cases hmc : matchChordType (chordIntervalsFrom (canonUnique notes) r0) with
  | none => rw [hmc] at hf0; cases hf0
  | some p =>
    obtain ⟨t, d⟩ := p
    rw [hmc] at hf0
    simp only [Option.map_some'] at hf0
    have hb := Option.some.inj hf0
    subst hb
    have hid : identifyChord notes = some
        { name := r0 ++ d.symbol
          notes := chordNoteNames (noteToIndex r0) d.intervals
          confidence := 1
          root := some r0
          type := some t } := by
      simp only [identifyChord]
      rw [if_neg (by omega), hfind]
    refine ⟨_, r0, hid, rfl, rfl, hmem, ?_, hle⟩
    rw [hmc]
    rfl

/-- C3, witness: the amended tie-break evaluated at `[E,C,G]` with the
matching root `C`. -/
theorem claim_C3_witness :
    2 ≤ (canonUnique ["E", "C", "G"]).length ∧
    "C" ∈ canonUnique ["E", "C", "G"] ∧
    (matchChordType
      (chordIntervalsFrom (canonUnique ["E", "C", "G"]) "C")).isSome = true ∧
    ∃ res r0, identifyChord ["E", "C", "G"] = some res ∧ res.root = some r0 ∧
      res.confidence = 1 ∧ r0 ∈ canonUnique ["E", "C", "G"] ∧
      (matchChordType
        (chordIntervalsFrom (canonUnique ["E", "C", "G"]) r0)).isSome = true ∧
      (canonUnique ["E", "C", "G"]).indexOf r0 ≤
        (canonUnique ["E", "C", "G"]).indexOf "C" :=
  ⟨by decide, by decide, by decide,
   claim_C3_supplied_order ["E", "C", "G"] "C" (by decide) (by decide) (by decide)⟩

/-- C5, counterexample: with fewer than 2 unique pitch classes
`identifyChord` returns `null` (`none`) — not a result carrying the
name `Unknown` — while the two-class no-match case does return the
`Unknown` record. -/
theorem claim_C5_counterexample :
    identifyChord ["C", "C"] = none ∧
    (identifyChord ["C", "E"]).map (fun r => (r.name, r.confidence, r.notes)) =
      some ("Unknown", 0, ["C", "E"]) :=
  ⟨by decide, by decide⟩

/-- C5, amended: fewer than 2 unique pitch classes yields `null`
(`none`, still a result value rather than a thrown error), and at least
2 unique classes with no template match yields name `Unknown`,
confidence 0 and the unique note list. -/
theorem claim_C5_no_match_values :
    ∀ notes : List String,
      ((canonUnique notes).length < 2 → identifyChord notes = none) ∧
      (2 ≤ (canonUnique notes).length → findChordMatch (canonUnique notes) = none →
        identifyChord notes =
          some ⟨"Unknown", canonUnique notes, 0, none, none⟩) := by
  intro notes
  constructor
  · intro h
    simp only [identifyChord]
    rw [if_pos h]
  · intro h2 hm
    simp only [identifyChord]
    rw [if_neg (by omega), hm]

/-- C5, witness: the amended no-match behaviour evaluated at
`['C','E']`. -/
theorem claim_C5_witness :
    2 ≤ (canonUnique ["C", "E"]).length ∧
    findChordMatch (canonUnique ["C", "E"]) = none ∧
    identifyChord ["C", "E"] = some ⟨"Unknown", canonUnique ["C", "E"], 0, none, none⟩ :=
  ⟨by decide, by decide, (claim_C5_no_match_values ["C", "E"]).2 (by decide) (by decide)⟩

instance : IsTotal KeyCandidate (fun a b => b.score ≤ a.score) :=
  ⟨fun a b => le_total b.score a.score⟩

instance : IsTrans KeyCandidate (fun a b => b.score ≤ a.score) :=
  ⟨fun _ _ _ hab hbc => le_trans hbc hab⟩

/-- C7: `detectKey` scores the 48 root × scale candidates (12 roots,
4 scale types) by `(matched - unmatched*2) / totalUnique`, keeps only
positive scores, returns at most 5 candidates sorted descending by
score, and returns `[]` when fewer than 2 unique pitch classes remain
(e.g. a single repeated note). -/
theorem claim_C7_detect_key :
    ∀ notes : List String,
      ((canonUnique notes).length < 2 → detectKey notes = []) ∧
      (detectKey notes).length ≤ 5 ∧
      List.Pairwise (fun a b => b.score ≤ a.score) (detectKey notes) ∧
      ∀ c ∈ detectKey notes, 0 < c.score ∧
        c.totalNotes = (canonUnique notes).length ∧
        c.score = ((c.matchedNotes : ℚ) -
            ((c.totalNotes : ℚ) - (c.matchedNotes : ℚ)) * 2) / (c.totalNotes : ℚ) ∧
        c.root ∈ NOTE_NAMES ∧ c.scale ∈ keyScaleTypes := by
  intro notes
  by_cases h : (canonUnique notes).length < 2
  · have he : detectKey notes = [] := by
      simp only [detectKey]
      rw [if_pos h]
    refine ⟨fun _ => he, ?_, ?_, ?_⟩ <;> rw [he] <;> simp
  · have hd : detectKey notes =
        ((NOTE_NAMES.flatMap fun root =>
          keyScaleTypes.filterMap fun scaleType =>
            scoreCandidate (canonUnique notes) root scaleType).insertionSort
          fun a b => b.score ≤ a.score).take 5 := by
      simp only [detectKey]
      rw [if_neg h]
    refine ⟨fun hlt => absurd hlt h, ?_, ?_, ?_⟩
    · rw [hd]
      exact List.length_take_le _ _
    · rw [hd]
      exact List.Pairwise.sublist (List.take_sublist _ _) (List.sorted_insertionSort _ _)
    · intro c hc
      rw [hd] at hc
      have hc1 := (List.take_sublist _ _).subset hc
      have hc2 := (List.perm_insertionSort
        (fun a b : KeyCandidate => b.score ≤ a.score) _).subset hc1
      rw [List.mem_flatMap] at hc2
      obtain ⟨root, hroot, hc3⟩ := hc2
      rw [List.mem_filterMap] at hc3
      obtain ⟨scaleType, hst, hsc⟩ := hc3
      unfold scoreCandidate at hsc
      cases hg : getScaleNotes root scaleType with
      | none => rw [hg] at hsc; cases hsc
      | some scale =>
        rw [hg] at hsc
        dsimp only at hsc
        split_ifs at hsc with hpos
        have hrec := Option.some.inj hsc
        subst hrec
        have hle : ((canonUnique notes).filter fun n => scale.notes.contains n).length ≤
            (canonUnique notes).length := List.length_filter_le _ _
        refine ⟨?_, rfl, ?_, hroot, hst⟩
        · simpa [max_eq_right (le_of_lt hpos)] using hpos
        · simp only [max_eq_right (le_of_lt hpos)]
          rw [Nat.cast_sub hle]

/-- C7, witness: key detection on the single repeated note `C` returns
the empty candidate list. -/
theorem claim_C7_witness :
    (canonUnique ["C", "C"]).length < 2 ∧ detectKey ["C", "C"] = [] :=
  ⟨by decide, (claim_C7_detect_key ["C", "C"]).1 (by decide)⟩

/-- C8: in the ideal-real model, note→frequency→note round-trips to the
canonical pitch-class spelling for every valid note and every integer
octave, `frequencyToNote (440·2^k) = A` for every integer `k` (negative
included), and `noteToFrequency('A', 4)` is exactly 440. -/
theorem claim_C8_roundtrip :
    (∀ (n : String) (octave : ℤ), ValidNote n →
      frequencyToNote (noteToFrequency n octave) = canonName n) ∧
    (∀ k : ℤ, frequencyToNote ((440 : ℝ) * (2 : ℝ) ^ k) = "A") ∧
    noteToFrequency "A" 4 = 440 := by
  have hA : ((A4_FREQUENCY : ℚ) : ℝ) = 440 := by norm_num [A4_FREQUENCY]
  refine ⟨?_, ?_, ?_⟩
  · intro n k hv
    obtain ⟨h0, h1⟩ := noteToIndex_bounds hv
    simp only [frequencyToNote, noteToFrequency]
    have hdiv : (((A4_FREQUENCY : ℚ) : ℝ) *
        (2 : ℝ) ^ ((((k + 1) * 12 + noteToIndex n - A4_MIDI_NUMBER : ℤ) : ℝ) / 12)) /
          ((A4_FREQUENCY : ℚ) : ℝ) =
        (2 : ℝ) ^ ((((k + 1) * 12 + noteToIndex n - A4_MIDI_NUMBER : ℤ) : ℝ) / 12) :=
      mul_div_cancel_left₀ _ (by rw [hA]; norm_num)
    rw [hdiv, Real.logb_rpow (by norm_num) (by norm_num)]
    have hcomp : (12 : ℝ) *
        ((((k + 1) * 12 + noteToIndex n - A4_MIDI_NUMBER : ℤ) : ℝ) / 12) + 69 =
        (((k + 1) * 12 + noteToIndex n : ℤ) : ℝ) := by
      push_cast [A4_MIDI_NUMBER]
      ring
    rw [hcomp, round_intCast]
    rw [indexToNote_eq_getD, emod_tmod_twelve]
    unfold canonName
    rw [indexToNote_eq_getD]
    have hmod : ((k + 1) * 12 + noteToIndex n) % 12 = (noteToIndex n) % 12 := by omega
    rw [hmod]
  · intro k
    simp only [frequencyToNote]
    have hdiv : ((440 : ℝ) * (2 : ℝ) ^ k) / ((A4_FREQUENCY : ℚ) : ℝ) = (2 : ℝ) ^ k := by
      rw [hA]
      exact mul_div_cancel_left₀ _ (by norm_num)
    rw [hdiv, ← Real.rpow_intCast 2 k, Real.logb_rpow (by norm_num) (by norm_num)]
    have hcomp : (12 : ℝ) * (k : ℝ) + 69 = ((12 * k + 69 : ℤ) : ℝ) := by
      push_cast
      ring
    rw [hcomp, round_intCast]
    rw [indexToNote_eq_getD, emod_tmod_twelve]
    have hmod : (12 * k + 69) % 12 = 9 := by omega
    rw [hmod]
    decide
  · simp only [noteToFrequency]
    have h9 : noteToIndex "A" = 9 := by decide
    rw [h9]
    norm_num [A4_MIDI_NUMBER]
    rw [hA]

/-- C8, witness: the round-trip evaluated at the flat-spelled `Bb` in
the low octave `-3`, landing on the canonical spelling `A#`. -/
theorem claim_C8_witness :
    ValidNote "Bb" ∧ frequencyToNote (noteToFrequency "Bb" (-3)) = "A#" :=
  ⟨by decide, (claim_C8_roundtrip.1 "Bb" (-3) (by decide)).trans (by decide)⟩

end MusicTheoryEngine

instance : IsTotal ANote (fun a b => a.freq ≤ b.freq) :=
  ⟨fun a b => le_total a.freq b.freq⟩

instance : IsTrans ANote (fun a b => a.freq ≤ b.freq) :=
  ⟨fun _ _ _ hab hbc => le_trans hab hbc⟩

/-- C10: `ChordAnalyzer.identify` is not side-effect-free on its input:
modelling the caller's array by explicit state passing, the array after
the call is a permutation of the input sorted ascending by frequency
(whenever the method gets past its 2-note guard), and on a concrete
out-of-order input the post-call contents differ from the input. -/
theorem claim_C10_sorts_input :
    (∀ l : List ANote,
      (ChordAnalyzer.identifyFinalNotes l).Perm l ∧
      (2 ≤ l.length →
        List.Pairwise (fun a b : ANote => a.freq ≤ b.freq)
          (ChordAnalyzer.identifyFinalNotes l))) ∧
    ChordAnalyzer.identifyFinalNotes [⟨330, "E"⟩, ⟨262, "C"⟩] ≠
      [⟨330, "E"⟩, ⟨262, "C"⟩] := by
  constructor
  · intro l
    unfold ChordAnalyzer.identifyFinalNotes
    by_cases h : l.length < 2
    · rw [if_pos h]
      exact ⟨List.Perm.refl l, fun h2 => absurd h2 (by omega)⟩
    · rw [if_neg h]
      exact ⟨List.perm_insertionSort _ _, fun _ => List.sorted_insertionSort _ _⟩
  · decide

/-- C10, witness: the reordering effect evaluated on a concrete
two-note input given high-to-low. -/
theorem claim_C10_witness :
    (ChordAnalyzer.identifyFinalNotes [⟨330, "E"⟩, ⟨262, "C"⟩]).Perm
      [⟨330, "E"⟩, ⟨262, "C"⟩] ∧
    List.Pairwise (fun a b : ANote => a.freq ≤ b.freq)
      (ChordAnalyzer.identifyFinalNotes [⟨330, "E"⟩, ⟨262, "C"⟩]) :=
  ⟨(claim_C10_sorts_input.1 [⟨330, "E"⟩, ⟨262, "C"⟩]).1,
   (claim_C10_sorts_input.1 [⟨330, "E"⟩, ⟨262, "C"⟩]).2 (by decide)⟩

end SonicGeometry
